import Mathlib

/-!
Verification of the Monte Carlo integration module (`task2.py`) of the
repository: a shallow embedding of `integral_mc` and `usage_example` in
Lean 4, followed by theorems settling the specification's claims.

Modelling decisions:
* Python floats are modelled as rationals (`ℚ`); the claims under study are
  about control flow, exact formulas and exact bounds, not rounding.
* The process-wide `random` module state is modelled by `PRNG`: an infinite
  stream of unit-interval draws together with a position.  `random.uniform a b`
  returns `a + (b - a) * u` for the next stream value `u` and advances the
  position; `random.seed s` replaces the whole state by a stream determined
  by the seed (the map from seeds to streams, `seedStream`, is an ambient
  parameter of the model).  The global state is threaded explicitly: every
  embedded function takes the incoming state and returns the outgoing one.
* Python exceptions are modelled with `Except`; `MCError` covers the
  `ValueError` raised by the validation guard (the spec's InvalidArgument),
  the `ZeroDivisionError` of float division by zero (the spec's
  DivisionUndefined), and a fault raised by the integrand.
* `points_number` can be an `int` or a `float` at the call site
  (`isinstance(points_number, int)` distinguishes them), so it is embedded
  as `PyNum`.
-/

/-- The state of Python's global `random` generator: an infinite stream of
unit-interval pseudo-random values and the current position in it. -/
structure PRNG where
  stream : Nat → ℚ
  pos : Nat

/-- Embedding of `random.uniform a b`: returns `a + (b - a) * u` for the next
stream value `u` and advances the generator. -/
def uniform (a b : ℚ) (g : PRNG) : ℚ × PRNG :=
  (a + (b - a) * g.stream g.pos, ⟨g.stream, g.pos + 1⟩)

/-- A Python number that is either an `int` or a `float`, as distinguished by
`isinstance(·, int)`. -/
inductive PyNum where
  | int (n : ℤ)
  | float (q : ℚ)

/-- The numeric value of a `PyNum`, used by comparisons such as `< 0`. -/
def PyNum.toRat : PyNum → ℚ
  | .int n => (n : ℚ)
  | .float q => q

/-- Embedding of `isinstance(points_number, int)`. -/
def PyNum.isInt : PyNum → Bool
  | .int _ => true
  | .float _ => false

/-- The number of iterations of `range(points_number)`.  Only reachable for
`int` values that passed the validation guard (hence nonnegative). -/
def PyNum.iterCount : PyNum → Nat
  | .int n => n.toNat
  | .float _ => 0

/-- Errors surfaced by the embedded code: the `ValueError` of the validation
guard, `ZeroDivisionError`, and a fault of type `F` raised by the supplied
integrand. -/
inductive MCError (F : Type) where
  | invalidArgument (msg : String)
  | zeroDivision
  | funcFault (e : F)
deriving DecidableEq

/-- Python true division: raises `ZeroDivisionError` when the divisor is
exactly zero, otherwise returns the exact quotient. -/
def pyDiv {F : Type} (a b : ℚ) : Except (MCError F) ℚ :=
  if b = 0 then Except.error MCError.zeroDivision else Except.ok (a / b)

/-- The sampling loop of `integral_mc` (line 49–52 of `task2.py`):
`sum(1 for _ in range(n) if random.uniform(0, ymax) <= func(random.uniform(0, xmax)))`.
Each iteration draws `y` first, then `x`, then evaluates `func x`; a fault of
the integrand aborts the loop at once with the generator advanced only by the
draws already made. -/
def mcLoop {F : Type} (ymax xmax : ℚ) (func : ℚ → Except F ℚ) :
    Nat → PRNG → Except F Nat × PRNG
  | 0, g => (Except.ok 0, g)
  | n + 1, g =>
    let yg := uniform 0 ymax g
    let xg := uniform 0 xmax yg.2
    match func xg.1 with
    | Except.error e => (Except.error e, xg.2)
    | Except.ok fx =>
      match mcLoop ymax xmax func n xg.2 with
      | (Except.error e, g3) => (Except.error e, g3)
      | (Except.ok c, g3) => (Except.ok ((if yg.1 ≤ fx then 1 else 0) + c), g3)

/-- The effect of lines 45–46 of `task2.py` on the global generator: if a seed
is supplied, `random.seed(seed)` replaces the state by the stream determined
by the seed; otherwise the ambient state is kept. -/
def initGen (seedStream : ℤ → Nat → ℚ) (seed : Option ℤ) (g : PRNG) : PRNG :=
  match seed with
  | some s => ⟨seedStream s, 0⟩
  | none => g

/-- Embedding of `integral_mc(xmax, ymax, func, points_number, seed)`
(`task2.py` lines 24–55).  Validation guard:
`points_number < 0 or not isinstance(points_number, int)`.  The pair returned
is (outcome, final global generator state). -/
def integral_mc {F : Type} (seedStream : ℤ → Nat → ℚ) (xmax ymax : ℚ)
    (func : ℚ → Except F ℚ) (points_number : PyNum) (seed : Option ℤ)
    (g : PRNG) : Except (MCError F) ℚ × PRNG :=
  if points_number.toRat < 0 ∨ points_number.isInt = false then
    (Except.error (MCError.invalidArgument "points_number must be a positive integer"), g)
  else
    let g0 := initGen seedStream seed g
    match mcLoop ymax xmax func points_number.iterCount g0 with
    | (Except.error e, g1) => (Except.error (MCError.funcFault e), g1)
    | (Except.ok points_under_curve, g1) =>
      let rectangle_area := xmax * ymax
      match @pyDiv F (points_under_curve : ℚ) points_number.toRat with
      | Except.error e => (Except.error e, g1)
      | Except.ok q => (Except.ok (q * rectangle_area), g1)

/-- The comparison step of `usage_example` (`task2.py` lines 76–78):
`abs(analytical_result - monte_carlo_result) / analytical_result * 100`,
with Python's division-by-zero semantics. -/
def difference_percent {F : Type} (analytical_result monte_carlo_result : ℚ) :
    Except (MCError F) ℚ :=
  match @pyDiv F |analytical_result - monte_carlo_result| analytical_result with
  | Except.error e => Except.error e
  | Except.ok q => Except.ok (q * 100)

/-- Outcome of `usage_example`: it can return normally after only printing a
message (the `return` in the guard — no value, no exception), raise an
exception, or run to completion having computed the Monte Carlo estimate, the
reference value and the difference percentage (the prints and the plot are
side effects outside the model). -/
inductive UsageOutcome where
  | earlyReturn (msg : String)
  | raised (e : MCError Empty)
  | completed (monte_carlo_result analytical_result difference : ℚ) (g : PRNG)

/-- Embedding of `usage_example(xmax, points_number, func)` (`task2.py` lines
58–104).  `quad` stands for the external reference integrator
`scipy.integrate.quad` (an oracle parameter: function, lower bound, upper
bound ↦ value); `func` is total here, as in the script.  The guard
`xmax < 0 or not isinstance(xmax, (int, float))` reduces to `xmax < 0` since
every modelled number is an `int` or a `float`. -/
def usage_example (seedStream : ℤ → Nat → ℚ) (quad : (ℚ → ℚ) → ℚ → ℚ → ℚ)
    (xmax : ℚ) (points_number : PyNum) (func : ℚ → ℚ) (g : PRNG) :
    UsageOutcome :=
  if xmax < 0 then UsageOutcome.earlyReturn "xmax must be a positive number"
  else
    let analytical_result := quad func 0 xmax
    match integral_mc seedStream xmax (func xmax)
        (fun x => (Except.ok (func x) : Except Empty ℚ)) points_number none g with
    | (Except.error e, _) => UsageOutcome.raised e
    | (Except.ok monte_carlo_result, g1) =>
      match @difference_percent Empty analytical_result monte_carlo_result with
      | Except.error e => UsageOutcome.raised e
      | Except.ok difference => UsageOutcome.completed monte_carlo_result
          analytical_result difference g1

/-- Whether the `i`-th sampled point of a run starting from generator state
`g` lands under the curve: its `y` draw (stream position `pos + 2i`) is at
most `f` of its `x` draw (stream position `pos + 2i + 1`), each scaled as by
`random.uniform`. -/
def pointUnder (ymax xmax : ℚ) (f : ℚ → ℚ) (g : PRNG) (i : Nat) : Prop :=
  0 + (ymax - 0) * g.stream (g.pos + 2 * i) ≤
    f (0 + (xmax - 0) * g.stream (g.pos + 2 * i + 1))

instance (ymax xmax : ℚ) (f : ℚ → ℚ) (g : PRNG) :
    DecidablePred (pointUnder ymax xmax f g) := fun i => by
  unfold pointUnder; infer_instance

/-- The `x`-coordinate handed to the integrand on iteration `j` of the
sampling loop started from generator state `g`. -/
def sampledX (xmax : ℚ) (g : PRNG) (j : Nat) : ℚ :=
  0 + (xmax - 0) * g.stream (g.pos + 2 * j + 1)

/-- Concrete fixtures used by witnesses and counterexamples: a generator whose
stream is constantly `0`. -/
def gZero : PRNG := ⟨fun _ => 0, 0⟩

/-- A generator whose stream enumerates the naturals, starting mid-stream. -/
def gSeq : PRNG := ⟨fun i => (i : ℚ), 0⟩

/-- A generator whose stream is constantly `1`, positioned mid-stream. -/
def gOnes : PRNG := ⟨fun _ => 1, 5⟩

/-- A seed-to-stream map that sends every seed to the constant-`0` stream. -/
def ssZero : ℤ → Nat → ℚ := fun _ _ => 0

/-- A seed-to-stream map that sends every seed to the constant-`1` stream. -/
def ssOne : ℤ → Nat → ℚ := fun _ _ => 1

/-- The identity integrand, wrapped as a non-faulting Python callable. -/
def fIdE : ℚ → Except Empty ℚ := fun x => Except.ok x

/-- The integrand `x ↦ x / 2`, wrapped as a non-faulting Python callable. -/
def fHalfE : ℚ → Except Empty ℚ := fun x => Except.ok (x / 2)

/-- An integrand that raises a fault exactly at `x = 3` and otherwise returns
its argument. -/
def fFaultAt3 : ℚ → Except Unit ℚ := fun x =>
  if x = 3 then Except.error () else Except.ok x

/-- A trivial reference-integrator oracle returning `0` everywhere. -/
def quadZero : (ℚ → ℚ) → ℚ → ℚ → ℚ := fun _ _ _ => 0

/-- The number of sampled points (out of `n`, starting from generator state
`g`) that land under the curve `f`: the cardinality of the set of indices
`i < n` with `pointUnder`. -/
def countUnder (ymax xmax : ℚ) (f : ℚ → ℚ) (n : Nat) (g : PRNG) : Nat :=
  ((Finset.range n).filter (pointUnder ymax xmax f g)).card

theorem pointUnder_shift (ymax xmax : ℚ) (f : ℚ → ℚ) (g : PRNG) (i : Nat) :
    pointUnder ymax xmax f ⟨g.stream, g.pos + 2⟩ i ↔ pointUnder ymax xmax f g (i + 1) := by
  have h1 : g.pos + 2 + 2 * i = g.pos + 2 * (i + 1) := by ring
  have h2 : g.pos + 2 + 2 * i + 1 = g.pos + 2 * (i + 1) + 1 := by ring
  simp only [pointUnder, h1, h2]

theorem countUnder_succ (ymax xmax : ℚ) (f : ℚ → ℚ) (n : Nat) (g : PRNG) :
    countUnder ymax xmax f (n + 1) g =
      (if pointUnder ymax xmax f g 0 then 1 else 0)
        + countUnder ymax xmax f n ⟨g.stream, g.pos + 2⟩ := by
  unfold countUnder
  rw [Finset.card_filter, Finset.card_filter, Finset.sum_range_succ']
  simp only [pointUnder_shift]
  exact Nat.add_comm _ _

theorem countUnder_le (ymax xmax : ℚ) (f : ℚ → ℚ) (n : Nat) (g : PRNG) :
    countUnder ymax xmax f n g ≤ n := by
  calc countUnder ymax xmax f n g ≤ (Finset.range n).card := Finset.card_filter_le _ _
    _ = n := Finset.card_range n

theorem mcLoop_total {F : Type} (ymax xmax : ℚ) (f : ℚ → ℚ) (n : Nat) (g : PRNG) :
    mcLoop ymax xmax (fun x => (Except.ok (f x) : Except F ℚ)) n g =
      (Except.ok (countUnder ymax xmax f n g), ⟨g.stream, g.pos + 2 * n⟩) := by
  induction n generalizing g with
  | zero => simp [mcLoop, countUnder]
  | succ n ih =>
    rw [countUnder_succ]
    simp only [mcLoop, uniform, ih]
    have hpos : g.pos + 1 + 1 + 2 * n = g.pos + 2 * (n + 1) := by ring
    have h0 : g.pos + 2 * 0 = g.pos := by ring
    have h1 : g.pos + 2 * 0 + 1 = g.pos + 1 := by ring
    simp only [pointUnder, h0, h1, hpos]

theorem sampledX_shift (xmax : ℚ) (g : PRNG) (j : Nat) :
    sampledX xmax ⟨g.stream, g.pos + 2⟩ j = sampledX xmax g (j + 1) := by
  have h : g.pos + 2 + 2 * j + 1 = g.pos + 2 * (j + 1) + 1 := by ring
  simp only [sampledX, h]

theorem sampledX_zero (xmax : ℚ) (g : PRNG) :
    (0 : ℚ) + (xmax - 0) * g.stream (g.pos + 1) = sampledX xmax g 0 := by
  have h : g.pos + 2 * 0 + 1 = g.pos + 1 := by ring
  simp only [sampledX, h]

theorem mcLoop_fault {F : Type} (ymax xmax : ℚ) (func : ℚ → Except F ℚ) (e : F)
    (n : Nat) (g : PRNG) (k : Nat) (hk : k < n)
    (hok : ∀ j < k, ∃ v, func (sampledX xmax g j) = Except.ok v)
    (herr : func (sampledX xmax g k) = Except.error e) :
    mcLoop ymax xmax func n g = (Except.error e, ⟨g.stream, g.pos + 2 * (k + 1)⟩) := by
  induction n generalizing g k with
  | zero => exact absurd hk (Nat.not_lt_zero k)
  | succ n ih =>
    cases k with
    | zero =>
      simp only [mcLoop, uniform]
      rw [sampledX_zero, herr]
    | succ k =>
      obtain ⟨v0, hv0⟩ := hok 0 (Nat.succ_pos k)
      simp only [mcLoop, uniform]
      rw [sampledX_zero, hv0]
      have hg2 : (⟨g.stream, g.pos + 1 + 1⟩ : PRNG) = ⟨g.stream, g.pos + 2⟩ := by
        have : g.pos + 1 + 1 = g.pos + 2 := by ring
        rw [this]
      rw [hg2]
      have hok2 : ∀ j < k, ∃ v,
          func (sampledX xmax (⟨g.stream, g.pos + 2⟩ : PRNG) j) = Except.ok v := by
        intro j hj
        rw [sampledX_shift]
        exact hok (j + 1) (Nat.succ_lt_succ hj)
      have herr2 : func (sampledX xmax (⟨g.stream, g.pos + 2⟩ : PRNG) k) =
          Except.error e := by
        rw [sampledX_shift]
        exact herr
      rw [ih ⟨g.stream, g.pos + 2⟩ k (Nat.lt_of_succ_lt_succ hk) hok2 herr2]
      have hfin : g.pos + 2 + 2 * (k + 1) = g.pos + 2 * (k + 1 + 1) := by ring
      simp only [hfin]

/-- C1: the spec says `points_number = 0` fails with InvalidArgument before
any sampling.  Evaluating the code at the failing input `points_number = 0`
(with `xmax = ymax = 1`, the identity integrand, no seed): the validation
guard `points_number < 0 or not isinstance(points_number, int)` accepts `0`,
and the call instead fails with a `ZeroDivisionError` when
`points_under_curve / points_number` is computed — not with the `ValueError`
the spec requires. -/
theorem C1_zero_passes_guard_and_divides_by_zero :
    (integral_mc ssZero 1 1 fIdE (PyNum.int 0) none gZero).1 =
      Except.error MCError.zeroDivision ∧
    (integral_mc ssZero 1 1 fIdE (PyNum.int 0) none gZero).1 ≠
      Except.error (MCError.invalidArgument
        "points_number must be a positive integer") := by
  constructor <;>
    simp [integral_mc, PyNum.toRat, PyNum.isInt, PyNum.iterCount, mcLoop,
      pyDiv, initGen]

/-- C3: with a seed supplied, the result of `integral_mc` is independent of
the ambient generator state, so two independent calls with identical
arguments and the same seed return bit-identical results. -/
theorem C3_seeded_calls_identical {F : Type} (ss : ℤ → Nat → ℚ)
    (xmax ymax : ℚ) (func : ℚ → Except F ℚ) (pn : PyNum) (s : ℤ)
    (g g' : PRNG) :
    (integral_mc ss xmax ymax func pn (some s) g).1 =
      (integral_mc ss xmax ymax func pn (some s) g').1 := by
  by_cases h : pn.toRat < 0 ∨ pn.isInt = false
  · simp [integral_mc, h]
  · simp [integral_mc, h, initGen]

/-- C5: the comparison step computes
`|reference − estimate| / reference × 100`, and fails with a
division-by-zero condition exactly when the reference value is zero (no
silent zero or infinity). -/
theorem C5_relative_difference (ref est : ℚ) :
    (ref = 0 →
      @difference_percent Empty ref est = Except.error MCError.zeroDivision) ∧
    (ref ≠ 0 →
      @difference_percent Empty ref est = Except.ok (|ref - est| / ref * 100)) := by
  constructor
  · intro h
    simp [difference_percent, pyDiv, h]
  · intro h
    simp [difference_percent, pyDiv, h]

theorem C5_witness :
    @difference_percent Empty 0 5 = Except.error MCError.zeroDivision ∧
    @difference_percent Empty 2 1 = Except.ok (|(2 : ℚ) - 1| / 2 * 100) :=
  ⟨(C5_relative_difference 0 5).1 rfl, (C5_relative_difference 2 1).2 (by norm_num)⟩

/-- C6: a call rejected by the validation guard returns the `ValueError`
with the global generator state exactly as it was: the rejection happens
before `random.seed` and before any draw, so no randomness is consumed and
the generator is unchanged. -/
theorem C6_rejection_preserves_generator {F : Type} (ss : ℤ → Nat → ℚ)
    (xmax ymax : ℚ) (func : ℚ → Except F ℚ) (pn : PyNum) (seed : Option ℤ)
    (g : PRNG) (h : pn.toRat < 0 ∨ pn.isInt = false) :
    integral_mc ss xmax ymax func pn seed g =
      (Except.error (MCError.invalidArgument
        "points_number must be a positive integer"), g) := by
  unfold integral_mc
  rw [if_pos h]

theorem C6_witness :
    integral_mc ssZero 1 1 fIdE (PyNum.int (-5)) (some 3) gSeq =
      (Except.error (MCError.invalidArgument
        "points_number must be a positive integer"), gSeq) :=
  C6_rejection_preserves_generator ssZero 1 1 fIdE (PyNum.int (-5)) (some 3)
    gSeq (Or.inl (by norm_num [PyNum.toRat]))

/-- C9: with `points_number = 0` the validation guard accepts the call (it
rejects only negative or non-`int` values), the loop draws no sample point
(the generator is only re-seeded if a seed was given, its position stays at
the initial value), and the call fails with a division-by-zero error when
`points_under_curve / points_number` is computed. -/
theorem C9_zero_points_division_by_zero {F : Type} (ss : ℤ → Nat → ℚ)
    (xmax ymax : ℚ) (func : ℚ → Except F ℚ) (seed : Option ℤ) (g : PRNG) :
    integral_mc ss xmax ymax func (PyNum.int 0) seed g =
      (Except.error MCError.zeroDivision, initGen ss seed g) := by
  simp [integral_mc, PyNum.toRat, PyNum.isInt, PyNum.iterCount, mcLoop, pyDiv]

/-- C10: `usage_example` with a negative `xmax` prints a message and returns
normally — no result and no exception; `xmax = 0` passes the guard and
proceeds to the computation (it is not rejected). -/
theorem C10_usage_guard (ss : ℤ → Nat → ℚ) (quad : (ℚ → ℚ) → ℚ → ℚ → ℚ)
    (pn : PyNum) (f : ℚ → ℚ) (g : PRNG) :
    (∀ xmax : ℚ, xmax < 0 →
      usage_example ss quad xmax pn f g =
        UsageOutcome.earlyReturn "xmax must be a positive number") ∧
    (∀ msg : String,
      usage_example ss quad 0 pn f g ≠ UsageOutcome.earlyReturn msg) := by
  constructor
  · intro xmax h
    simp [usage_example, h]
  · intro msg
    simp only [usage_example]
    rw [if_neg (lt_irrefl (0 : ℚ))]
    split
    · simp
    · split <;> simp

theorem C10_witness :
    usage_example ssZero quadZero (-1) (PyNum.int 1) (fun x => x) gZero =
      UsageOutcome.earlyReturn "xmax must be a positive number" ∧
    usage_example ssZero quadZero 0 (PyNum.int 1) (fun x => x) gZero ≠
      UsageOutcome.earlyReturn "xmax must be a positive number" :=
  ⟨(C10_usage_guard ssZero quadZero (PyNum.int 1) (fun x => x) gZero).1 (-1)
      (by norm_num),
   (C10_usage_guard ssZero quadZero (PyNum.int 1) (fun x => x) gZero).2
      "xmax must be a positive number"⟩

theorem integral_mc_pos {F : Type} (ss : ℤ → Nat → ℚ) (xmax ymax : ℚ)
    (f : ℚ → ℚ) (n : ℤ) (seed : Option ℤ) (g : PRNG) (hn : 0 < n) :
    integral_mc ss xmax ymax (fun x => (Except.ok (f x) : Except F ℚ))
        (PyNum.int n) seed g =
      (Except.ok
        (((countUnder ymax xmax f n.toNat (initGen ss seed g) : ℚ) / (n : ℚ))
          * (xmax * ymax)),
       ⟨(initGen ss seed g).stream,
        (initGen ss seed g).pos + 2 * n.toNat⟩) := by
  have hguard : ¬(PyNum.toRat (PyNum.int n) < 0 ∨
      PyNum.isInt (PyNum.int n) = false) := by
    simp only [PyNum.toRat, PyNum.isInt, not_or]
    refine ⟨?_, by simp⟩
    push_neg
    exact_mod_cast hn.le
  have hne : PyNum.toRat (PyNum.int n) ≠ 0 := by
    simp only [PyNum.toRat]
    exact_mod_cast hn.ne'
  unfold integral_mc
  rw [if_neg hguard]
  simp only [PyNum.iterCount]
  rw [mcLoop_total]
  have hne' : ¬((n : ℚ) = 0) := by exact_mod_cast hn.ne'
  simp only [pyDiv, PyNum.toRat]
  rw [if_neg hne']

/-- C2: for every valid call (positive integer sample count, positive bounds)
with a total integrand, the value returned by `integral_mc` equals
(number of sampled points with `y ≤ f x`) / sample count × (xmax × ymax),
where the `i`-th point is under the curve exactly when its `y` draw is `≤ f`
of its `x` draw (`pointUnder`, counted by `countUnder`). -/
theorem C2_estimator_formula (ss : ℤ → Nat → ℚ) (xmax ymax : ℚ) (f : ℚ → ℚ)
    (n : ℤ) (seed : Option ℤ) (g : PRNG) (hn : 0 < n) (hx : 0 < xmax)
    (hy : 0 < ymax) :
    (integral_mc ss xmax ymax (fun x => (Except.ok (f x) : Except Empty ℚ))
        (PyNum.int n) seed g).1 =
      Except.ok
        (((countUnder ymax xmax f n.toNat (initGen ss seed g) : ℚ) / (n : ℚ))
          * (xmax * ymax)) := by
  rw [integral_mc_pos ss xmax ymax f n seed g hn]

theorem C2_witness :
    (integral_mc ssZero 1 1 (fun x => (Except.ok x : Except Empty ℚ))
        (PyNum.int 1) none gZero).1 = Except.ok 1 := by
  rw [C2_estimator_formula ssZero 1 1 (fun x => x) 1 none gZero (by norm_num)
    (by norm_num) (by norm_num)]
  norm_num [countUnder, pointUnder, initGen, gZero, Finset.filter_singleton,
    Finset.range_one]

/-- C4: for every valid call, the under-curve count lies between `0` and the
sample count, and the returned estimate lies between `0` and
`xmax × ymax` (the bounding-rectangle area). -/
theorem C4_boundedness (ss : ℤ → Nat → ℚ) (xmax ymax : ℚ) (f : ℚ → ℚ)
    (n : ℤ) (seed : Option ℤ) (g : PRNG) (hn : 0 < n) (hx : 0 < xmax)
    (hy : 0 < ymax) :
    countUnder ymax xmax f n.toNat (initGen ss seed g) ≤ n.toNat ∧
    ∀ v : ℚ,
      (integral_mc ss xmax ymax (fun x => (Except.ok (f x) : Except Empty ℚ))
          (PyNum.int n) seed g).1 = Except.ok v →
        0 ≤ v ∧ v ≤ xmax * ymax := by
  refine ⟨countUnder_le _ _ _ _ _, ?_⟩
  intro v hv
  rw [integral_mc_pos ss xmax ymax f n seed g hn] at hv
  have hv' : ((countUnder ymax xmax f n.toNat (initGen ss seed g) : ℚ) / (n : ℚ))
      * (xmax * ymax) = v := by
    injection hv
  have hnq : (0 : ℚ) < (n : ℚ) := by exact_mod_cast hn
  have hcle : ((countUnder ymax xmax f n.toNat (initGen ss seed g) : ℚ)) ≤ (n : ℚ) := by
    have h1 : countUnder ymax xmax f n.toNat (initGen ss seed g) ≤ n.toNat :=
      countUnder_le _ _ _ _ _
    have h2 : ((n.toNat : ℤ) : ℚ) = (n : ℚ) := by
      rw [Int.toNat_of_nonneg hn.le]
    calc ((countUnder ymax xmax f n.toNat (initGen ss seed g) : ℚ))
        ≤ ((n.toNat : ℕ) : ℚ) := by exact_mod_cast h1
      _ = (n : ℚ) := by push_cast at h2 ⊢; exact h2
  constructor
  · rw [← hv']
    positivity
  · rw [← hv']
    have hdiv : ((countUnder ymax xmax f n.toNat (initGen ss seed g) : ℚ)) / (n : ℚ) ≤ 1 := by
      rw [div_le_one hnq]
      exact hcle
    calc ((countUnder ymax xmax f n.toNat (initGen ss seed g) : ℚ) / (n : ℚ))
        * (xmax * ymax) ≤ 1 * (xmax * ymax) := by
          exact mul_le_mul_of_nonneg_right hdiv (by positivity)
    _ = xmax * ymax := one_mul _

theorem C4_witness :
    countUnder 1 1 (fun x => x) (1 : ℤ).toNat (initGen ssZero none gZero)
        ≤ (1 : ℤ).toNat ∧
    (0 ≤ (1 : ℚ) ∧ (1 : ℚ) ≤ 1 * 1) := by
  have h := C4_boundedness ssZero 1 1 (fun x => x) 1 none gZero (by norm_num)
    (by norm_num) (by norm_num)
  refine ⟨h.1, h.2 1 ?_⟩
  rw [integral_mc_pos ssZero 1 1 (fun x => x) 1 none gZero (by norm_num)]
  norm_num [countUnder, pointUnder, initGen, gZero, Finset.filter_singleton,
    Finset.range_one]

/-- Counterexample to C7: the generator is the process-wide `random` state,
so a seeded call does perturb the stream seen by a later unseeded call.
Concretely (seed-to-stream map `ssOne`, ambient state `gZero`, integrand
`x / 2` over the unit square, one sample): an unseeded call made after a
seeded call returns `0`, while the same unseeded call made without the
earlier seeded call returns `1` — the second call's result depends on
whether the first call was made. -/
theorem C7_counterexample :
    (integral_mc ssOne 1 1 fHalfE (PyNum.int 1) none
        (integral_mc ssOne 1 1 fHalfE (PyNum.int 1) (some 7) gZero).2).1 ≠
      (integral_mc ssOne 1 1 fHalfE (PyNum.int 1) none gZero).1 := by
  norm_num [integral_mc, mcLoop, uniform, pyDiv, initGen, PyNum.toRat,
    PyNum.isInt, PyNum.iterCount, ssOne, gZero, fHalfE]

/-- C7 (amended): the generator is shared process-wide state, so a seeded
call can perturb a later unseeded call (see the counterexample); what does
hold is that a call which supplies its own seed is insulated from earlier
calls: whenever its sample count passes validation, its entire outcome —
returned value and the generator state it leaves behind — is independent of
the ambient generator state. -/
theorem C7_seeded_call_ignores_ambient_state {F : Type} (ss : ℤ → Nat → ℚ)
    (xmax ymax : ℚ) (func : ℚ → Except F ℚ) (pn : PyNum) (s : ℤ)
    (g g' : PRNG) (h : ¬(pn.toRat < 0 ∨ pn.isInt = false)) :
    integral_mc ss xmax ymax func pn (some s) g =
      integral_mc ss xmax ymax func pn (some s) g' := by
  unfold integral_mc
  rw [if_neg h, if_neg h]
  rfl

theorem C7_witness :
    integral_mc ssZero 1 1 fIdE (PyNum.int 1) (some 3) gZero =
      integral_mc ssZero 1 1 fIdE (PyNum.int 1) (some 3) gOnes :=
  C7_seeded_call_ignores_ambient_state ssZero 1 1 fIdE (PyNum.int 1) 3 gZero
    gOnes (by norm_num [PyNum.toRat, PyNum.isInt])

/-- C8: if the integrand raises a fault at the `k`-th sampled `x` (having
succeeded at every earlier sampled point), the whole call fails at once with
that fault: no catch, no retry, nothing returned, and the generator has
advanced by exactly the `2(k+1)` draws made up to the fault. -/
theorem C8_fault_propagates {F : Type} (ss : ℤ → Nat → ℚ) (xmax ymax : ℚ)
    (func : ℚ → Except F ℚ) (n : ℤ) (seed : Option ℤ) (g : PRNG) (k : Nat)
    (e : F) (hn : 0 < n) (hk : k < n.toNat)
    (hok : ∀ j < k, ∃ v,
      func (sampledX xmax (initGen ss seed g) j) = Except.ok v)
    (herr : func (sampledX xmax (initGen ss seed g) k) = Except.error e) :
    integral_mc ss xmax ymax func (PyNum.int n) seed g =
      (Except.error (MCError.funcFault e),
       ⟨(initGen ss seed g).stream,
        (initGen ss seed g).pos + 2 * (k + 1)⟩) := by
  have hguard : ¬(PyNum.toRat (PyNum.int n) < 0 ∨
      PyNum.isInt (PyNum.int n) = false) := by
    simp only [PyNum.toRat, PyNum.isInt, not_or]
    refine ⟨?_, by simp⟩
    push_neg
    exact_mod_cast hn.le
  unfold integral_mc
  rw [if_neg hguard]
  simp only [PyNum.iterCount]
  rw [mcLoop_fault ymax xmax func e n.toNat (initGen ss seed g) k hk hok herr]

theorem C8_witness :
    integral_mc ssZero 1 1 fFaultAt3 (PyNum.int 3) none gSeq =
      (Except.error (MCError.funcFault ()),
       ⟨(initGen ssZero none gSeq).stream,
        (initGen ssZero none gSeq).pos + 2 * (1 + 1)⟩) := by
  refine C8_fault_propagates ssZero 1 1 fFaultAt3 3 none gSeq 1 ()
    (by norm_num) (by norm_num) ?_ ?_
  · intro j hj
    have hj0 : j = 0 := by omega
    subst hj0
    refine ⟨1, ?_⟩
    norm_num [initGen, sampledX, gSeq, fFaultAt3]
  · norm_num [initGen, sampledX, gSeq, fFaultAt3]
